import Mathlib

/-!
Verification of the API-key lifecycle and usage-accounting core of
AI_Tool_Nest_API (`app/services/api_key_service.py`, `app/core/security.py`,
`app/models/api_key.py`, `app/models/api_key_usage.py`,
`app/schemas/api_key.py`, `app/api/v1/endpoints/api_keys.py`).

The embedding is executable: machine words are `Nat` reduced mod `2 ^ 32`
where the algorithm wraps, the database session is an explicit `Store`
value threaded through each operation, Python `datetime.utcnow()` becomes
an explicit `now : Nat` argument, SQLAlchemy's `scalar_one_or_none` becomes
`scalarOneOrNone` returning `Except` (it raises on more than one row), and
`secrets.token_urlsafe(32)` — the only nondeterministic input — becomes an
explicit `raw : String` argument to issuance.
-/

set_option maxRecDepth 16384

namespace AiToolNest

/-- Reduce to a 32-bit word, as CPython's fixed-width SHA-256 arithmetic does. -/
def u32 (n : Nat) : Nat := n % 4294967296

/-- Right rotation of a 32-bit word: low `n` bits wrap to the top. -/
def rotr (n x : Nat) : Nat := (x >>> n) + (x % 2 ^ n) * 2 ^ (32 - n)

/-- SHA-256 big sigma 0. -/
def bigSigma0 (x : Nat) : Nat := (rotr 2 x) ^^^ (rotr 13 x) ^^^ (rotr 22 x)

/-- SHA-256 big sigma 1. -/
def bigSigma1 (x : Nat) : Nat := (rotr 6 x) ^^^ (rotr 11 x) ^^^ (rotr 25 x)

/-- SHA-256 small sigma 0. -/
def smallSigma0 (x : Nat) : Nat := (rotr 7 x) ^^^ (rotr 18 x) ^^^ (x >>> 3)

/-- SHA-256 small sigma 1. -/
def smallSigma1 (x : Nat) : Nat := (rotr 17 x) ^^^ (rotr 19 x) ^^^ (x >>> 10)

/-- The 64 SHA-256 round constants of FIPS 180-4 (fractional cube roots of
the first 64 primes), written as decimal 32-bit words. -/
def sha256K : List Nat :=
  [1116352408, 1899447441, 3049323471, 3921009573, 961987163, 1508970993,
   2453635748, 2870763221, 3624381080, 310598401, 607225278, 1426881987,
   1925078388, 2162078206, 2614888103, 3248222580, 3835390401, 4022224774,
   264347078, 604807628, 770255983, 1249150122, 1555081692, 1996064986,
   2554220882, 2821834349, 2952996808, 3210313671, 3336571891, 3584528711,
   113926993, 338241895, 666307205, 773529912, 1294757372, 1396182291,
   1695183700, 1986661051, 2177026350, 2456956037, 2730485921, 2820302411,
   3259730800, 3345764771, 3516065817, 3600352804, 4094571909, 275423344,
   430227734, 506948616, 659060556, 883997877, 958139571, 1322822218,
   1537002063, 1747873779, 1955562222, 2024104815, 2227730452, 2361852424,
   2428436474, 2756734187, 3204031479, 3329325298]

/-- The eight-word SHA-256 working state. -/
structure Hash8 where
  a : Nat
  b : Nat
  c : Nat
  d : Nat
  e : Nat
  f : Nat
  g : Nat
  h : Nat
deriving Repr, DecidableEq

/-- The SHA-256 initial hash value of FIPS 180-4, as decimal 32-bit words. -/
def sha256H0 : Hash8 :=
  ⟨1779033703, 3144134277, 1013904242, 2773480762,
   1359893119, 2600822924, 528734635, 1541459225⟩

/-- One SHA-256 compression round, consuming a (round constant, schedule word) pair. -/
def shaRound (st : Hash8) (kw : Nat × Nat) : Hash8 :=
  let ch := (st.e &&& st.f) ^^^ ((4294967295 ^^^ st.e) &&& st.g)
  let maj := (st.a &&& st.b) ^^^ (st.a &&& st.c) ^^^ (st.b &&& st.c)
  let t1 := u32 (st.h + bigSigma1 st.e + ch + kw.1 + kw.2)
  let t2 := u32 (bigSigma0 st.a + maj)
  ⟨u32 (t1 + t2), st.a, st.b, st.c, u32 (st.d + t1), st.e, st.f, st.g⟩

/-- Extend a 16-word block to the 64-word message schedule. -/
def extendWords (block : List Nat) : List Nat :=
  (List.range 48).foldl
    (fun acc _ =>
      let i := acc.length
      acc ++ [u32 (acc.getD (i - 16) 0 + smallSigma0 (acc.getD (i - 15) 0) +
                   acc.getD (i - 7) 0 + smallSigma1 (acc.getD (i - 2) 0))])
    block

/-- Compress one 16-word block into the running hash value. -/
def compress (hv : Hash8) (block : List Nat) : Hash8 :=
  let st := (sha256K.zip (extendWords block)).foldl shaRound hv
  ⟨u32 (hv.a + st.a), u32 (hv.b + st.b), u32 (hv.c + st.c), u32 (hv.d + st.d),
   u32 (hv.e + st.e), u32 (hv.f + st.f), u32 (hv.g + st.g), u32 (hv.h + st.h)⟩

/-- The 8-byte big-endian encoding of the message bit length. -/
def lenBytes (n : Nat) : List Nat :=
  [(n >>> 56) % 256, (n >>> 48) % 256, (n >>> 40) % 256, (n >>> 32) % 256,
   (n >>> 24) % 256, (n >>> 16) % 256, (n >>> 8) % 256, n % 256]

/-- SHA-256 padding: append `0x80`, zeros to 56 mod 64, then the 64-bit bit length. -/
def padBytes (msg : List Nat) : List Nat :=
  msg ++ [128] ++ List.replicate ((119 - msg.length % 64) % 64) 0 ++ lenBytes (8 * msg.length)

/-- Group bytes into big-endian 32-bit words (input length a multiple of 4). -/
def bytesToWords : List Nat → List Nat
  | b0 :: b1 :: b2 :: b3 :: rest =>
      (((b0 * 256 + b1) * 256 + b2) * 256 + b3) :: bytesToWords rest
  | _ => []

/-- Group words into 16-word blocks (input length a multiple of 16). -/
def chunk16 : List Nat → List (List Nat)
  | w0 :: w1 :: w2 :: w3 :: w4 :: w5 :: w6 :: w7 ::
    w8 :: w9 :: w10 :: w11 :: w12 :: w13 :: w14 :: w15 :: rest =>
      [w0, w1, w2, w3, w4, w5, w6, w7, w8, w9, w10, w11, w12, w13, w14, w15] :: chunk16 rest
  | _ => []

/-- The four big-endian bytes of a 32-bit word. -/
def wordBytes (w : Nat) : List Nat :=
  [(w >>> 24) % 256, (w >>> 16) % 256, (w >>> 8) % 256, w % 256]

/-- SHA-256 of a byte list, as the 32 digest bytes. -/
def sha256Bytes (msg : List Nat) : List Nat :=
  let hv := (chunk16 (bytesToWords (padBytes msg))).foldl compress sha256H0
  wordBytes hv.a ++ wordBytes hv.b ++ wordBytes hv.c ++ wordBytes hv.d ++
  wordBytes hv.e ++ wordBytes hv.f ++ wordBytes hv.g ++ wordBytes hv.h

/-- Lower-case hex digit for a value below 16. -/
def hexDigitChar (n : Nat) : Char :=
  match n with
  | 0 => '0' | 1 => '1' | 2 => '2' | 3 => '3' | 4 => '4'
  | 5 => '5' | 6 => '6' | 7 => '7' | 8 => '8' | 9 => '9'
  | 10 => 'a' | 11 => 'b' | 12 => 'c' | 13 => 'd' | 14 => 'e'
  | _ => 'f'

/-- Two lower-case hex digits of one byte. -/
def byteHex (b : Nat) : List Char := [hexDigitChar (b / 16), hexDigitChar (b % 16)]

/-- Lower-case hex string of a byte list, as Python's `hexdigest()` renders it. -/
def hexOfBytes (bs : List Nat) : String := ⟨bs.flatMap byteHex⟩

/-- UTF-8 bytes of one character, as Python's `str.encode()` produces them. -/
def utf8Char (c : Char) : List Nat :=
  let n := c.toNat
  if n < 128 then [n]
  else if n < 2048 then [192 + n / 64, 128 + n % 64]
  else if n < 65536 then [224 + n / 4096, 128 + (n / 64) % 64, 128 + n % 64]
  else [240 + n / 262144, 128 + (n / 4096) % 64, 128 + (n / 64) % 64, 128 + n % 64]

/-- UTF-8 encoding of a string, as Python's `api_key.encode()`. -/
def utf8Encode (s : String) : List Nat := s.data.flatMap utf8Char

/-- `get_api_key_hash` (app/core/security.py): the SHA-256 hex digest of the
UTF-8 encoded key, `hashlib.sha256(api_key.encode()).hexdigest()`. -/
def get_api_key_hash (api_key : String) : String := hexOfBytes (sha256Bytes (utf8Encode api_key))

/-- `verify_api_key` (app/core/security.py): compare the computed digest with
the stored one using ordinary string equality (`==`). -/
def verify_api_key (api_key stored_hash : String) : Bool :=
  get_api_key_hash api_key == stored_hash

/-- FIPS 180-4 test vector: the implementation agrees with SHA-256 on "abc". -/
theorem sha256_test_vector_abc :
    get_api_key_hash "abc" = "ba7816bf8f01cfea414140de5dae2223b00361a396177a9cb410ff61f20015ad" := by
  rfl

/-- Python's `api_key[:8]`: the first eight characters of the raw key. -/
def pySlice8 (s : String) : String := ⟨s.data.take 8⟩

/-- `KeyStatus` (app/models/api_key.py): lifecycle states of an API key. -/
inductive KeyStatus where
  | active
  | revoked
  | expired
deriving Repr, DecidableEq

/-- `APIKey` (app/models/api_key.py): one stored credential row. The
`created_at` column comes from `TimestampModel` (app/models/base.py, not in
the source tree); modelled from the spec: the Credential carries a creation
time. Time values are abstract `Nat` instants. -/
structure APIKey where
  id : Nat
  key_prefix : String
  key_hash : String
  name : String
  status : KeyStatus
  expires_at : Option Nat
  last_used_at : Option Nat
  revoked_at : Option Nat
  user_id : Nat
  created_at : Nat
deriving Repr, DecidableEq

/-- `APIKeyUsage` (app/models/api_key_usage.py): one immutable usage row. The
`created_at` column comes from `TimestampModel` (app/models/base.py, not in
the source tree); modelled from the spec: the UsageRecord carries a timestamp.
Response times are exact rationals standing for the Python floats. -/
structure APIKeyUsage where
  id : Nat
  endpoint : String
  method : String
  status_code : Nat
  response_time : ℚ
  ip_address : String
  user_agent : Option String
  api_key_id : Nat
  created_at : Nat
deriving Repr, DecidableEq

/-- The relational store the session reads and writes: rows in insertion
order (SQLAlchemy appends on `session.add`), with autoincrement ids. -/
structure Store where
  keys : List APIKey
  usage : List APIKeyUsage
  nextKeyId : Nat
  nextUsageId : Nat
deriving Repr, DecidableEq

/-- The store with no rows. -/
def emptyStore : Store := ⟨[], [], 0, 0⟩

/-- The error SQLAlchemy's `scalar_one_or_none` raises on more than one row. -/
inductive DBErr where
  | multipleResultsFound
deriving Repr, DecidableEq

/-- `Result.scalar_one_or_none()`: `none` on zero rows, the row on exactly
one, and an exception (`MultipleResultsFound`) on more than one. -/
def scalarOneOrNone {α : Type} : List α → Except DBErr (Option α)
  | [] => .ok none
  | [a] => .ok (some a)
  | _ => .error .multipleResultsFound

/-- `APIKeyService.create_api_key` (app/services/api_key_service.py): hash
and slice the freshly generated raw key, insert an active row, and return
both the stored row and the raw key. The raw key produced by
`generate_api_key()` (`secrets.token_urlsafe(32)`) enters as the explicit
`raw` argument; `now` is the insertion instant. -/
def create_api_key (st : Store) (user_id : Nat) (name : String) (raw : String) (now : Nat) :
    APIKey × String × Store :=
  let db_key : APIKey :=
    { id := st.nextKeyId,
      key_prefix := pySlice8 raw,
      key_hash := get_api_key_hash raw,
      name := name,
      status := KeyStatus.active,
      expires_at := none,
      last_used_at := none,
      revoked_at := none,
      user_id := user_id,
      created_at := now }
  (db_key, raw, { st with keys := st.keys ++ [db_key], nextKeyId := st.nextKeyId + 1 })

/-- `APIKeyService.get_user_api_keys`: select the user's rows whose
`revoked_at` is NULL. The query has no ORDER BY, so rows come back in the
store's insertion order; the session is returned unchanged. -/
def get_user_api_keys (st : Store) (user_id : Nat) : List APIKey × Store :=
  (st.keys.filter (fun k => decide (k.user_id = user_id ∧ k.revoked_at = none)), st)

/-- `APIKeyService.revoke_api_key`: select the single row matching id, owner
and `revoked_at IS NULL`; if found, set status to revoked and stamp
`revoked_at`, else return `none` with the store untouched. -/
def revoke_api_key (st : Store) (key_id : Nat) (user_id : Nat) (now : Nat) :
    Except DBErr (Option APIKey × Store) :=
  let cands := st.keys.filter
    (fun k => decide (k.id = key_id ∧ k.user_id = user_id ∧ k.revoked_at = none))
  match scalarOneOrNone cands with
  | .error e => .error e
  | .ok none => .ok (none, st)
  | .ok (some api_key) =>
    let k' := { api_key with status := KeyStatus.revoked, revoked_at := some now }
    .ok (some k', { st with keys := st.keys.map (fun j => if j.id = api_key.id then k' else j) })

/-- `APIKeyService.verify_and_update_key`: slice the first eight characters,
select the single ACTIVE row with that stored slice (`scalar_one_or_none`
raises if several match), compare digests with `verify_api_key`, and on a
match stamp `last_used_at` and persist; otherwise return `none`. -/
def verify_and_update_key (st : Store) (api_key : String) (now : Nat) :
    Except DBErr (Option APIKey × Store) :=
  let pfx := pySlice8 api_key
  let cands := st.keys.filter
    (fun k => decide ( APIKey.key_prefix k = pfx ∧ k.status = KeyStatus.active))
  match scalarOneOrNone cands with
  | .error e => .error e
  | .ok none => .ok (none, st)
  | .ok (some db_key) =>
    if verify_api_key api_key db_key.key_hash then
      let k' := { db_key with last_used_at := some now }
      .ok (some k', { st with keys := st.keys.map (fun j => if j.id = db_key.id then k' else j) })
    else .ok (none, st)

/-- `APIKeyService.log_api_key_usage`: append one usage row. -/
def log_api_key_usage (st : Store) (api_key_id : Nat) (endpoint : String) (method : String)
    (status_code : Nat) (response_time : ℚ) (ip_address : String) (user_agent : Option String)
    (now : Nat) : Store :=
  { st with
    usage := st.usage ++
      [{ id := st.nextUsageId,
         endpoint := endpoint,
         method := method,
         status_code := status_code,
         response_time := response_time,
         ip_address := ip_address,
         user_agent := user_agent,
         api_key_id := api_key_id,
         created_at := now }],
    nextUsageId := st.nextUsageId + 1 }

/-- `APIKeyUsageEntry` (app/schemas/api_key.py): one row of the recent-usage
feed, carrying the original row's fields. -/
structure APIKeyUsageEntry where
  endpoint : String
  method : String
  status_code : Nat
  response_time : ℚ
  ip_address : String
  user_agent : Option String
  created_at : Nat
deriving Repr, DecidableEq

/-- `APIKeyUsageStats` (app/schemas/api_key.py). The Python `dict[str, int]`
becomes an insertion-ordered association list with pairwise-distinct keys,
which is exactly a Python dict's observable content. -/
structure APIKeyUsageStats where
  total_requests : Nat
  successful_requests : Nat
  failed_requests : Nat
  average_response_time : ℚ
  usage_by_endpoint : List (String × Nat)
  recent_usage : List APIKeyUsageEntry
deriving Repr, DecidableEq

/-- One step of `usage_by_endpoint[log.endpoint] = usage_by_endpoint.get(log.endpoint, 0) + 1`:
bump the (unique) existing entry or append a fresh one at the end, as a
Python dict assignment does. -/
def incrEndpoint : List (String × Nat) → String → List (String × Nat)
  | [], e => [(e, 1)]
  | (k, n) :: rest, e => if k = e then (k, n + 1) :: rest else (k, n) :: incrEndpoint rest e

/-- The `for log in usage_logs` loop building `usage_by_endpoint`. -/
def endpointCounts (usage_logs : List APIKeyUsage) : List (String × Nat) :=
  usage_logs.foldl (fun d log => incrEndpoint d log.endpoint) []

/-- The `APIKeyUsageEntry(...)` constructor call in `get_key_usage_stats`. -/
def toUsageEntry (log : APIKeyUsage) : APIKeyUsageEntry :=
  { endpoint := log.endpoint,
    method := log.method,
    status_code := log.status_code,
    response_time := log.response_time,
    ip_address := log.ip_address,
    user_agent := log.user_agent,
    created_at := log.created_at }

/-- Python's `sorted(usage_logs, key=lambda x: x.created_at, reverse=True)`:
a stable sort putting larger timestamps first. -/
def sortedByCreatedDesc (usage_logs : List APIKeyUsage) : List APIKeyUsage :=
  usage_logs.mergeSort (fun x y => decide (y.created_at ≤ x.created_at))

/-- The usage query of `get_key_usage_stats`:
`select(APIKeyUsage).where(APIKeyUsage.api_key_id == key_id)`, all rows. -/
def keyUsageLogs (st : Store) (key_id : Nat) : List APIKeyUsage :=
  st.usage.filter (fun u => decide (u.api_key_id = key_id))

/-- `APIKeyService.get_key_usage_stats`: confirm the key exists and belongs
to the user (else `None`), read the key's usage rows, special-case the empty
ledger, and otherwise compute counts, the mean latency, the per-endpoint
histogram and the ten most recent entries. -/
def get_key_usage_stats (st : Store) (key_id : Nat) (user_id : Nat) :
    Except DBErr (Option APIKeyUsageStats) :=
  let owned := st.keys.filter (fun k => decide (k.id = key_id ∧ k.user_id = user_id))
  match scalarOneOrNone owned with
  | .error e => .error e
  | .ok none => .ok none
  | .ok (some _) =>
    let usage_logs := keyUsageLogs st key_id
    if usage_logs.isEmpty then
      .ok (some
        { total_requests := 0,
          successful_requests := 0,
          failed_requests := 0,
          average_response_time := 0,
          usage_by_endpoint := [],
          recent_usage := [] })
    else
      let total_requests := usage_logs.length
      let successful_requests := usage_logs.countP (fun log => decide (log.status_code < 400))
      let failed_requests := total_requests - successful_requests
      let average_response_time :=
        (usage_logs.map (fun log => log.response_time)).sum / (total_requests : ℚ)
      let recent_usage := (sortedByCreatedDesc usage_logs).take 10
      .ok (some
        { total_requests := total_requests,
          successful_requests := successful_requests,
          failed_requests := failed_requests,
          average_response_time := average_response_time,
          usage_by_endpoint := endpointCounts usage_logs,
          recent_usage := recent_usage.map toUsageEntry })

/-- The validation failure pydantic raises for `APIKeyCreate`. -/
inductive ValidationErr where
  | invalidName
deriving Repr, DecidableEq

/-- The POST `/api-keys/` route (app/api/v1/endpoints/api_keys.py) together
with its request schema `APIKeyCreate` (app/schemas/api_key.py): pydantic
rejects a `name` outside `min_length=1, max_length=100` before the service
runs; otherwise the service creates the key. -/
def create_api_key_endpoint (st : Store) (user_id : Nat) (name : String) (raw : String)
    (now : Nat) : Except ValidationErr (APIKey × String × Store) :=
  if name.length < 1 ∨ name.length > 100 then .error ValidationErr.invalidName
  else .ok (create_api_key st user_id name raw now)

/-- Cost model of CPython's `str ==` as used by `verify_api_key`: unequal
lengths are settled by the length word alone; equal-length strings are
compared character by character from the left, stopping at the first
mismatch. The count is the number of character comparisons performed. -/
def strCmpSteps : List Char → List Char → Nat
  | a :: as, b :: bs => if a = b then 1 + strCmpSteps as bs else 1
  | _, _ => 0

/-- Comparison steps of a Python `a == b` on strings under `strCmpSteps`. -/
def pyStrEqCost (a b : String) : Nat :=
  if a.length = b.length then strCmpSteps a.data b.data else 1

/-- Comparison steps `verify_api_key api_key stored_hash` spends on its
digest comparison under the `pyStrEqCost` model. -/
def verify_api_key_cost (api_key stored_hash : String) : Nat :=
  pyStrEqCost (get_api_key_hash api_key) stored_hash

/-- The number of leading positions where two character lists agree. -/
def leadingMatch : List Char → List Char → Nat
  | a :: as, b :: bs => if a = b then 1 + leadingMatch as bs else 0
  | _, _ => 0

/-- Count of the key's usage rows hitting a given endpoint. -/
def countEndpoint (e : String) (usage_logs : List APIKeyUsage) : Nat :=
  usage_logs.countP (fun u => decide (u.endpoint = e))

/-- Reachable-state invariant of the credential table: a row is active
exactly when its revocation stamp is unset (issuance starts rows active and
unstamped, revocation moves them to revoked and stamps them, and nothing in
the code ever produces the reserved `expired` status). -/
def storeInv (st : Store) : Prop :=
  ∀ k ∈ st.keys, (k.status = KeyStatus.active ↔ k.revoked_at = none)

section Helpers

theorem scalarOneOrNone_nil {α : Type} : scalarOneOrNone ([] : List α) = .ok none := rfl

theorem scalarOneOrNone_singleton {α : Type} (a : α) :
    scalarOneOrNone [a] = .ok (some a) := rfl

theorem scalarOneOrNone_two {α : Type} (l : List α) (h : 2 ≤ l.length) :
    scalarOneOrNone l = .error DBErr.multipleResultsFound := by
  match l with
  | [] => simp at h
  | [a] => simp at h
  | a :: b :: t => rfl

/-- `verify_and_update_key` when the ACTIVE-with-this-slice query returns no
row: authentication fails, the store is untouched. -/
theorem verify_of_no_candidate (st : Store) (api_key : String) (now : Nat)
    (hc : st.keys.filter
        (fun k => decide ( APIKey.key_prefix k = pySlice8 api_key ∧ k.status = KeyStatus.active))
      = []) :
    verify_and_update_key st api_key now = .ok (none, st) := by
  simp only [verify_and_update_key]
  rw [hc]
  rfl

/-- `verify_and_update_key` when the query returns exactly one row whose
digest matches: stamp `last_used_at` and persist. -/
theorem verify_of_candidate_match (st : Store) (api_key : String) (now : Nat) (k : APIKey)
    (hc : st.keys.filter
        (fun j => decide ( APIKey.key_prefix j = pySlice8 api_key ∧ j.status = KeyStatus.active))
      = [k])
    (hv : verify_api_key api_key k.key_hash = true) :
    verify_and_update_key st api_key now =
      .ok (some { k with last_used_at := some now },
           { st with keys := st.keys.map (fun j => if j.id = k.id then { k with last_used_at := some now } else j) }) := by
  simp only [verify_and_update_key]
  rw [hc]
  simp [scalarOneOrNone, hv]

/-- `verify_and_update_key` when the query returns exactly one row whose
digest does not match: authentication fails, the store is untouched. -/
theorem verify_of_candidate_mismatch (st : Store) (api_key : String) (now : Nat) (k : APIKey)
    (hc : st.keys.filter
        (fun j => decide ( APIKey.key_prefix j = pySlice8 api_key ∧ j.status = KeyStatus.active))
      = [k])
    (hv : verify_api_key api_key k.key_hash = false) :
    verify_and_update_key st api_key now = .ok (none, st) := by
  simp only [verify_and_update_key]
  rw [hc]
  simp [scalarOneOrNone, hv]

/-- `revoke_api_key` when the id/owner/unrevoked query returns no row. -/
theorem revoke_of_no_candidate (st : Store) (key_id user_id now : Nat)
    (hc : st.keys.filter
        (fun k => decide (k.id = key_id ∧ k.user_id = user_id ∧ k.revoked_at = none)) = []) :
    revoke_api_key st key_id user_id now = .ok (none, st) := by
  simp only [revoke_api_key]
  rw [hc]
  rfl

/-- `revoke_api_key` when the query returns exactly one row: mark it revoked
and stamp it. -/
theorem revoke_of_candidate (st : Store) (key_id user_id now : Nat) (k : APIKey)
    (hc : st.keys.filter
        (fun j => decide (j.id = key_id ∧ j.user_id = user_id ∧ j.revoked_at = none)) = [k]) :
    revoke_api_key st key_id user_id now =
      .ok (some { k with status := KeyStatus.revoked, revoked_at := some now },
           { st with keys := st.keys.map (fun j => if j.id = k.id then { k with status := KeyStatus.revoked, revoked_at := some now } else j) }) := by
  simp only [revoke_api_key]
  rw [hc]
  simp [scalarOneOrNone]

/-- A duplicate-free id column forces any id-pinned filter to a single row. -/
theorem filter_eq_singleton_of_nodup_ids (l : List APIKey) (p : APIKey → Bool)
    (hnodup : (l.map APIKey.id).Nodup) (k : APIKey) (hk : k ∈ l) (hpk : p k = true)
    (hid : ∀ j, p j = true → j.id = k.id) : l.filter p = [k] := by
  induction l with
  | nil => cases hk
  | cons x xs ih =>
    simp only [List.map_cons, List.nodup_cons] at hnodup
    rcases List.mem_cons.mp hk with hkx | hkxs
    · subst hkx
      simp only [List.filter_cons, hpk, if_pos]
      have hxs : xs.filter p = [] := by
        refine List.filter_eq_nil_iff.mpr (fun j hj hpj => ?_)
        exact hnodup.1 (by
          have := hid j hpj
          rw [← this]
          exact List.mem_map_of_mem APIKey.id hj)
      rw [hxs]
    · have hxk : p x = false := by
        by_contra hpx
        have hpx' : p x = true := by
          cases hx : p x with
          | true => rfl
          | false => exact absurd hx hpx
        have : x.id = k.id := hid x hpx'
        exact hnodup.1 (by rw [this]; exact List.mem_map_of_mem APIKey.id hkxs)
      simp only [List.filter_cons, hxk]
      simp only [Bool.false_eq_true, if_false]
      exact ih hnodup.2 hkxs

/-- `revoke_api_key` raises when several rows match the query. -/
theorem revoke_of_many (st : Store) (key_id user_id now : Nat)
    (h2 : 2 ≤ (st.keys.filter
        (fun k => decide (k.id = key_id ∧ k.user_id = user_id ∧ k.revoked_at = none))).length) :
    revoke_api_key st key_id user_id now = .error DBErr.multipleResultsFound := by
  simp only [revoke_api_key]
  rw [scalarOneOrNone_two _ h2]

/-- Inversion: a revocation that returned a credential found exactly one
matching row, revoked it and rewrote the table pointwise. -/
theorem revoke_ok_some_inv (st : Store) (key_id user_id now : Nat) (k' : APIKey) (st' : Store)
    (h : revoke_api_key st key_id user_id now = .ok (some k', st')) :
    ∃ a, st.keys.filter
        (fun j => decide (j.id = key_id ∧ j.user_id = user_id ∧ j.revoked_at = none)) = [a] ∧
      k' = { a with status := KeyStatus.revoked, revoked_at := some now } ∧
      st' = { st with keys := st.keys.map (fun j => if j.id = a.id then k' else j) } := by
  simp only [revoke_api_key] at h
  cases hfil : st.keys.filter
      (fun j => decide (j.id = key_id ∧ j.user_id = user_id ∧ j.revoked_at = none)) with
  | nil => rw [hfil] at h; simp [scalarOneOrNone] at h
  | cons a t =>
    cases t with
    | nil =>
      rw [hfil] at h
      simp only [scalarOneOrNone, Except.ok.injEq, Prod.mk.injEq, Option.some.injEq] at h
      exact ⟨a, rfl, h.1.symm, by rw [← h.1, ← h.2]⟩
    | cons b t2 =>
      rw [hfil] at h
      simp [scalarOneOrNone] at h

/-- Inversion: a verification that returned a credential found exactly one
ACTIVE row with the presented slice, its digest matched, and the table was
rewritten pointwise with the touched row. -/
theorem verify_ok_some_inv (st : Store) (api_key : String) (now : Nat) (k' : APIKey) (st' : Store)
    (h : verify_and_update_key st api_key now = .ok (some k', st')) :
    ∃ a, st.keys.filter
        (fun j => decide ( APIKey.key_prefix j = pySlice8 api_key ∧ j.status = KeyStatus.active))
        = [a] ∧
      verify_api_key api_key a.key_hash = true ∧
      k' = { a with last_used_at := some now } ∧
      st' = { st with keys := st.keys.map (fun j => if j.id = a.id then k' else j) } := by
  simp only [verify_and_update_key] at h
  cases hfil : st.keys.filter
      (fun j => decide ( APIKey.key_prefix j = pySlice8 api_key ∧ j.status = KeyStatus.active)) with
  | nil => rw [hfil] at h; simp [scalarOneOrNone] at h
  | cons a t =>
    cases t with
    | nil =>
      rw [hfil] at h
      simp only [scalarOneOrNone] at h
      cases hv : verify_api_key api_key a.key_hash with
      | false => rw [hv] at h; simp at h
      | true =>
        rw [hv] at h
        simp only [if_true, Except.ok.injEq, Prod.mk.injEq, Option.some.injEq] at h
        exact ⟨a, rfl, hv, h.1.symm, by rw [← h.1, ← h.2]⟩
    | cons b t2 =>
      rw [hfil] at h
      simp [scalarOneOrNone] at h

/-- Python dict lookup on the insertion-ordered association list. -/
def dictGet : List (String × Nat) → String → Option Nat
  | [], _ => none
  | (k, n) :: rest, e => if k = e then some n else dictGet rest e

/-- Sum of a Python dict's values. -/
def dictValsSum (d : List (String × Nat)) : Nat := (d.map Prod.snd).sum

theorem dictGet_incrEndpoint (d : List (String × Nat)) (e e' : String) :
    dictGet (incrEndpoint d e) e' =
      if e' = e then some ((dictGet d e').getD 0 + 1) else dictGet d e' := by
  induction d with
  | nil =>
    by_cases he' : e' = e
    · simp [incrEndpoint, dictGet, he']
    · have h2 : ¬ (e = e') := fun hh => he' hh.symm
      simp [incrEndpoint, dictGet, he', h2]
  | cons p rest ih =>
    obtain ⟨k, n⟩ := p
    by_cases hk : k = e
    · by_cases he' : e' = e
      · simp [incrEndpoint, dictGet, hk, he']
      · have h2 : ¬ (e = e') := fun hh => he' hh.symm
        simp [incrEndpoint, dictGet, hk, he', h2]
    · by_cases hke' : k = e'
      · have h2 : ¬ (e' = e) := fun hh => hk (hke'.trans hh)
        simp [incrEndpoint, dictGet, hk, hke', h2]
      · simp [incrEndpoint, dictGet, hk, hke', ih]

theorem dictGet_usage_foldl (logs : List APIKeyUsage) (d : List (String × Nat)) (e : String) :
    dictGet (logs.foldl (fun acc log => incrEndpoint acc log.endpoint) d) e =
      match dictGet d e with
      | some n => some (n + countEndpoint e logs)
      | none => if countEndpoint e logs = 0 then none else some (countEndpoint e logs) := by
  induction logs generalizing d with
  | nil => cases h : dictGet d e <;> simp [countEndpoint, h]
  | cons log rest ih =>
    rw [List.foldl_cons, ih, dictGet_incrEndpoint]
    by_cases he : e = log.endpoint
    · subst he
      have hcnt : countEndpoint log.endpoint (log :: rest) =
          countEndpoint log.endpoint rest + 1 := by
        simp [countEndpoint, List.countP_cons]
      cases h : dictGet d log.endpoint <;> simp [h, hcnt] <;> omega
    · have hne : ¬ (log.endpoint = e) := fun hh => he hh.symm
      have hcnt : countEndpoint e (log :: rest) = countEndpoint e rest := by
        simp [countEndpoint, List.countP_cons, hne]
      cases h : dictGet d e <;> simp [h, he, hcnt]

theorem dictValsSum_incrEndpoint (d : List (String × Nat)) (e : String) :
    dictValsSum (incrEndpoint d e) = dictValsSum d + 1 := by
  induction d with
  | nil => simp [incrEndpoint, dictValsSum]
  | cons p rest ih =>
    obtain ⟨k, n⟩ := p
    by_cases hk : k = e
    · simp [incrEndpoint, hk, dictValsSum]
      omega
    · simp [incrEndpoint, hk, dictValsSum] at ih ⊢
      omega

theorem dictValsSum_usage_foldl (logs : List APIKeyUsage) (d : List (String × Nat)) :
    dictValsSum (logs.foldl (fun acc log => incrEndpoint acc log.endpoint) d) =
      dictValsSum d + logs.length := by
  induction logs generalizing d with
  | nil => simp
  | cons log rest ih =>
    rw [List.foldl_cons, ih, dictValsSum_incrEndpoint, List.length_cons]
    omega

/-- The histogram loop assigns every usage row to exactly one bucket. -/
theorem dictValsSum_endpointCounts (logs : List APIKeyUsage) :
    dictValsSum (endpointCounts logs) = logs.length := by
  have h := dictValsSum_usage_foldl logs []
  simpa [endpointCounts, dictValsSum] using h

/-- The histogram's entry for an endpoint is its exact row count, present
exactly when the count is positive. -/
theorem dictGet_endpointCounts (logs : List APIKeyUsage) (e : String) (n : Nat) :
    dictGet (endpointCounts logs) e = some n ↔
      (countEndpoint e logs = n ∧ 0 < n) := by
  have h := dictGet_usage_foldl logs [] e
  simp only [dictGet] at h
  rw [endpointCounts, h]
  by_cases hc : countEndpoint e logs = 0
  · rw [if_pos hc]
    simp only [hc]
    constructor
    · intro hx
      cases hx
    · intro hx
      omega
  · rw [if_neg hc]
    simp only [Option.some.injEq]
    omega

theorem length_flatMap_byteHex (bs : List Nat) :
    (bs.flatMap byteHex).length = 2 * bs.length := by
  induction bs with
  | nil => simp
  | cons b rest ih =>
    simp [List.flatMap_cons, byteHex, ih]
    omega

theorem sha256Bytes_length (msg : List Nat) : (sha256Bytes msg).length = 32 := by
  simp [sha256Bytes, wordBytes]

/-- A stored digest is always the 64 hex characters of SHA-256. -/
theorem get_api_key_hash_length (s : String) : (get_api_key_hash s).length = 64 := by
  have h1 : (get_api_key_hash s).length =
      ((sha256Bytes (utf8Encode s)).flatMap byteHex).length := rfl
  rw [h1, length_flatMap_byteHex, sha256Bytes_length]

/-- The stored slice keeps at most the first eight characters. -/
theorem pySlice8_length (s : String) : (pySlice8 s).length = min 8 s.length := by
  have h1 : (pySlice8 s).length = (s.data.take 8).length := rfl
  have h2 : s.length = s.data.length := rfl
  rw [h1, h2, List.length_take]

/-- The recent-usage sort is by descending timestamp. -/
theorem sortedByCreatedDesc_pairwise (logs : List APIKeyUsage) :
    (sortedByCreatedDesc logs).Pairwise (fun a b => b.created_at ≤ a.created_at) := by
  have h := @List.sorted_mergeSort APIKeyUsage
    (fun x y => decide (y.created_at ≤ x.created_at))
    (fun a b c hab hbc => by
      simp only [decide_eq_true_eq] at hab hbc ⊢
      exact le_trans hbc hab)
    (fun a b => by
      rcases Nat.le_total a.created_at b.created_at with h | h <;> simp [h])
    logs
  exact h.imp (fun hx => by simpa using hx)

/-- The recent-usage sort permutes the rows, so keeps exactly them. -/
theorem mem_sortedByCreatedDesc (logs : List APIKeyUsage) (x : APIKeyUsage) :
    x ∈ sortedByCreatedDesc logs ↔ x ∈ logs :=
  (List.mergeSort_perm logs _).mem_iff

end Helpers

section ConcreteInputs

/-- A 43-character raw key, the length `secrets.token_urlsafe(32)` returns. -/
def rawX : String := "Xkey4321AAAAAAAAAAAAAAAAAAAAAAAAAAAAAAAAAAA"

/-- A second 43-character raw key sharing its first eight characters with
`rawB`. -/
def rawA : String := "collide8AAAAAAAAAAAAAAAAAAAAAAAAAAAAAAAAAAA"

/-- A third 43-character raw key sharing its first eight characters with
`rawA`. -/
def rawB : String := "collide8BBBBBBBBBBBBBBBBBBBBBBBBBBBBBBBBBBB"

/-- One user, one freshly issued active credential. -/
def demoStore : Store := (create_api_key emptyStore 7 "ci-bot" rawX 1).2.2

/-- `demoStore`'s credential after its successful revocation at instant 5. -/
def demoRevokedKey : APIKey :=
  { id := 0, key_prefix := pySlice8 rawX, key_hash := get_api_key_hash rawX, name := "ci-bot",
    status := KeyStatus.revoked, expires_at := none, last_used_at := none,
    revoked_at := some 5, user_id := 7, created_at := 1 }

/-- `demoStore` after the revocation at instant 5. -/
def demoRevokedStore : Store := { demoStore with keys := [demoRevokedKey] }

/-- `demoStore`'s credential after a successful verification at instant 2. -/
def demoTouchedKey : APIKey :=
  { id := 0, key_prefix := pySlice8 rawX, key_hash := get_api_key_hash rawX, name := "ci-bot",
    status := KeyStatus.active, expires_at := none, last_used_at := some 2,
    revoked_at := none, user_id := 7, created_at := 1 }

/-- `demoStore` after the verification at instant 2. -/
def demoTouchedStore : Store := { demoStore with keys := [demoTouchedKey] }

/-- Two distinct ACTIVE credentials of the same user whose raw secrets share
their first eight characters. -/
def collisionStore : Store :=
  (create_api_key (create_api_key emptyStore 7 "first" rawA 1).2.2 7 "second" rawB 2).2.2

end ConcreteInputs

/-- C1: for every user id and label, verifying the raw secret returned by
issuance, immediately after the issuance and with no intervening operation
on that credential, succeeds and returns a credential with the identifier of
the record issuance returned. (The only caveat the code imposes: no other
ACTIVE credential may already sit on the same eight-character slice, which
holds with overwhelming probability for `secrets.token_urlsafe(32)` keys;
the colliding case is claim C2's subject.) -/
theorem issue_then_verify_returns_same_credential
    (st : Store) (user_id : Nat) (name raw : String) (now now2 : Nat)
    (hfresh : ∀ k ∈ st.keys,
      ¬( APIKey.key_prefix k = pySlice8 raw ∧ k.status = KeyStatus.active)) :
    ∃ k' st₃,
      verify_and_update_key (create_api_key st user_id name raw now).2.2 raw now2 =
        .ok (some k', st₃) ∧
      k'.id = (create_api_key st user_id name raw now).1.id := by
  have hkeys : (create_api_key st user_id name raw now).2.2.keys =
      st.keys ++ [(create_api_key st user_id name raw now).1] := rfl
  have hnil : st.keys.filter
      (fun j => decide ( APIKey.key_prefix j = pySlice8 raw ∧ j.status = KeyStatus.active)) =
      [] :=
    List.filter_eq_nil_iff.mpr (fun k hk => by simpa using hfresh k hk)
  have hfil : (create_api_key st user_id name raw now).2.2.keys.filter
      (fun j => decide ( APIKey.key_prefix j = pySlice8 raw ∧ j.status = KeyStatus.active)) =
      [(create_api_key st user_id name raw now).1] := by
    rw [hkeys, List.filter_append, hnil]
    simp [create_api_key]
  have hv : verify_api_key raw (create_api_key st user_id name raw now).1.key_hash = true := by
    simp [create_api_key, verify_api_key]
  exact ⟨_, _, verify_of_candidate_match _ raw now2 _ hfil hv, rfl⟩

/-- C1 witness: issuing on the empty store for user 42 and verifying at once
returns the same credential id. -/
theorem issue_then_verify_returns_same_credential_witness :
    ∃ k' st₃,
      verify_and_update_key (create_api_key emptyStore 42 "ci-bot" rawX 1).2.2 rawX 2 =
        .ok (some k', st₃) ∧
      k'.id = (create_api_key emptyStore 42 "ci-bot" rawX 1).1.id :=
  issue_then_verify_returns_same_credential emptyStore 42 "ci-bot" rawX 1 2
    (fun k hk => absurd hk (by simp [emptyStore]))

/-- C2 counterexample: two distinct ACTIVE credentials share their first
eight characters; verifying one of the two raw secrets does not return that
secret's own credential — `scalar_one_or_none` raises `MultipleResultsFound`
instead of fingerprint-checking the candidates. -/
theorem shared_slice_counterexample :
    rawA ≠ rawB ∧
    pySlice8 rawA = pySlice8 rawB ∧
    collisionStore.keys.map APIKey.status = [KeyStatus.active, KeyStatus.active] ∧
    collisionStore.keys.map APIKey.id = [0, 1] ∧
    verify_and_update_key collisionStore rawA 3 = .error DBErr.multipleResultsFound :=
  ⟨by decide, by decide, rfl, rfl, rfl⟩

/-- C2 amended: whenever more than one ACTIVE credential matches the
presented key's eight-character slice, verification does not resolve by
fingerprint; it raises `MultipleResultsFound`. -/
theorem shared_slice_verify_raises (st : Store) (api_key : String) (now : Nat)
    (hmulti : 2 ≤ (st.keys.filter
        (fun k => decide ( APIKey.key_prefix k = pySlice8 api_key ∧
          k.status = KeyStatus.active))).length) :
    verify_and_update_key st api_key now = .error DBErr.multipleResultsFound := by
  simp only [verify_and_update_key]
  rw [scalarOneOrNone_two _ hmulti]

/-- C2 amended witness: the two colliding credentials make verification of
the second secret raise. -/
theorem shared_slice_verify_raises_witness :
    verify_and_update_key collisionStore rawB 3 = .error DBErr.multipleResultsFound :=
  shared_slice_verify_raises collisionStore rawB 3 (by decide)

/-- C3: after a successful revocation, verifying that credential's raw
secret fails (returns no credential, which the API layer reports as 401),
and the stored credential is revoked with its revocation instant set. The
hypothesis pins `raw` as this credential's secret territory: no OTHER stored
credential sits on `raw`'s slice while active. -/
theorem revoke_then_verify_fails (st : Store) (key_id user_id now now2 : Nat) (raw : String)
    (k' : APIKey) (st' : Store)
    (hother : ∀ j ∈ st.keys, j.id ≠ key_id →
      ¬( APIKey.key_prefix j = pySlice8 raw ∧ j.status = KeyStatus.active))
    (hrev : revoke_api_key st key_id user_id now = .ok (some k', st')) :
    k'.status = KeyStatus.revoked ∧ k'.revoked_at = some now ∧
    verify_and_update_key st' raw now2 = .ok (none, st') := by
  obtain ⟨a, hfil, hk', hst'⟩ := revoke_ok_some_inv st key_id user_id now k' st' hrev
  have hamem : a ∈ st.keys.filter
      (fun j => decide (j.id = key_id ∧ j.user_id = user_id ∧ j.revoked_at = none)) := by
    rw [hfil]
    exact List.mem_singleton_self a
  have haq := List.mem_filter.mp hamem
  have haid : a.id = key_id := by
    have h2 := haq.2
    simp only [decide_eq_true_eq] at h2
    exact h2.1
  have hkeys' : st'.keys = st.keys.map (fun j => if j.id = a.id then k' else j) := by
    rw [hst']
  refine ⟨by rw [hk'], by rw [hk'], ?_⟩
  apply verify_of_no_candidate
  refine List.filter_eq_nil_iff.mpr (fun x hx hpx => ?_)
  rw [hkeys'] at hx
  simp only [List.mem_map] at hx
  obtain ⟨j, hj, hxj⟩ := hx
  by_cases hjid : j.id = a.id
  · rw [if_pos hjid] at hxj
    rw [← hxj, hk'] at hpx
    simp at hpx
  · rw [if_neg hjid] at hxj
    rw [← hxj] at hpx
    simp only [decide_eq_true_eq] at hpx
    exact hother j hj (by rw [haid] at hjid; exact hjid) hpx

/-- C3 witness: revoking the demo credential at instant 5 and then verifying
its raw secret fails and leaves the store untouched. -/
theorem revoke_then_verify_fails_witness :
    demoRevokedKey.status = KeyStatus.revoked ∧ demoRevokedKey.revoked_at = some 5 ∧
    verify_and_update_key demoRevokedStore rawX 6 = .ok (none, demoRevokedStore) :=
  revoke_then_verify_fails demoStore 0 7 5 6 rawX demoRevokedKey demoRevokedStore
    (by decide) (by rfl)

/-- C10: a successful verification changes only the matched credential's
`last_used_at`; every other field of that credential, every other
credential's row, the usage ledger and the id counters are unchanged. -/
theorem verify_touch_frame (st : Store) (api_key : String) (now : Nat) (k' : APIKey)
    (st' : Store)
    (h : verify_and_update_key st api_key now = .ok (some k', st')) :
    ∃ k ∈ st.keys,
      k' = { k with last_used_at := some now } ∧
      st'.keys = st.keys.map (fun j => if j.id = k.id then k' else j) ∧
      k'.id = k.id ∧ k'.key_hash = k.key_hash ∧
       APIKey.key_prefix k' = APIKey.key_prefix k ∧
      k'.name = k.name ∧ k'.status = k.status ∧ k'.user_id = k.user_id ∧
      k'.expires_at = k.expires_at ∧ k'.created_at = k.created_at ∧
      k'.revoked_at = k.revoked_at ∧ k'.last_used_at = some now ∧
      (∀ j ∈ st.keys, j.id ≠ k.id → j ∈ st'.keys) ∧
      st'.usage = st.usage ∧ st'.nextKeyId = st.nextKeyId ∧
      st'.nextUsageId = st.nextUsageId := by
  obtain ⟨a, hfil, hv, hk', hst'⟩ := verify_ok_some_inv st api_key now k' st' h
  have hamem : a ∈ st.keys := by
    have hmem : a ∈ st.keys.filter
        (fun j => decide ( APIKey.key_prefix j = pySlice8 api_key ∧
          j.status = KeyStatus.active)) := by
      rw [hfil]
      exact List.mem_singleton_self a
    exact List.mem_of_mem_filter hmem
  subst hk'
  subst hst'
  refine ⟨a, hamem, rfl, rfl, rfl, rfl, rfl, rfl, rfl, rfl, rfl, rfl, rfl, rfl, ?_, rfl, rfl, rfl⟩
  intro j hj hne
  exact List.mem_map.mpr ⟨j, hj, by rw [if_neg hne]⟩

/-- C10 witness: verifying the demo credential at instant 2 stamps only its
`last_used_at`. -/
theorem verify_touch_frame_witness :
    ∃ k ∈ demoStore.keys,
      demoTouchedKey = { k with last_used_at := some 2 } ∧
      demoTouchedStore.keys =
        demoStore.keys.map (fun j => if j.id = k.id then demoTouchedKey else j) ∧
      demoTouchedKey.id = k.id ∧ demoTouchedKey.key_hash = k.key_hash ∧
       APIKey.key_prefix demoTouchedKey = APIKey.key_prefix k ∧
      demoTouchedKey.name = k.name ∧ demoTouchedKey.status = k.status ∧
      demoTouchedKey.user_id = k.user_id ∧
      demoTouchedKey.expires_at = k.expires_at ∧ demoTouchedKey.created_at = k.created_at ∧
      demoTouchedKey.revoked_at = k.revoked_at ∧ demoTouchedKey.last_used_at = some 2 ∧
      (∀ j ∈ demoStore.keys, j.id ≠ k.id → j ∈ demoTouchedStore.keys) ∧
      demoTouchedStore.usage = demoStore.usage ∧
      demoTouchedStore.nextKeyId = demoStore.nextKeyId ∧
      demoTouchedStore.nextUsageId = demoStore.nextUsageId :=
  verify_touch_frame demoStore rawX 2 demoTouchedKey demoTouchedStore (by rfl)

/-- C5: revocation reports not-found (returns no credential, which the
route maps to HTTP 404) exactly when no credential with this id belongs to
this owner and is active — in particular a second revocation of the same
credential reports not-found and returns the store unchanged. The
hypothesis is the reachable-state invariant: a stored row is active exactly
when its revocation stamp is unset. -/
theorem revoke_not_found_iff (st : Store) (key_id user_id now : Nat)
    (hinv : ∀ k ∈ st.keys, (k.status = KeyStatus.active ↔ k.revoked_at = none)) :
    (revoke_api_key st key_id user_id now = .ok (none, st) ↔
      ¬ ∃ k ∈ st.keys, k.id = key_id ∧ k.user_id = user_id ∧
        k.status = KeyStatus.active) ∧
    (∀ k' st', revoke_api_key st key_id user_id now = .ok (some k', st') →
      ∀ now2, revoke_api_key st' key_id user_id now2 = .ok (none, st')) := by
  constructor
  · constructor
    · intro h hex
      obtain ⟨k, hk, hid, huid, hact⟩ := hex
      have hrv : k.revoked_at = none := (hinv k hk).mp hact
      have hkf : k ∈ st.keys.filter
          (fun j => decide (j.id = key_id ∧ j.user_id = user_id ∧ j.revoked_at = none)) :=
        List.mem_filter.mpr ⟨hk, by simp [hid, huid, hrv]⟩
      cases hfil : st.keys.filter
          (fun j => decide (j.id = key_id ∧ j.user_id = user_id ∧ j.revoked_at = none)) with
      | nil =>
        rw [hfil] at hkf
        cases hkf
      | cons a t =>
        cases t with
        | nil =>
          have hres := revoke_of_candidate st key_id user_id now a hfil
          rw [hres] at h
          simp at h
        | cons b t2 =>
          have hres := revoke_of_many st key_id user_id now
            (by rw [hfil]; simp [List.length_cons])
          rw [hres] at h
          cases h
    · intro hne
      apply revoke_of_no_candidate
      refine List.filter_eq_nil_iff.mpr (fun k hk hq => hne ?_)
      simp only [decide_eq_true_eq] at hq
      exact ⟨k, hk, hq.1, hq.2.1, (hinv k hk).mpr hq.2.2⟩
  · intro k' st' h now2
    obtain ⟨a, hfil, hk', hst'⟩ := revoke_ok_some_inv st key_id user_id now k' st' h
    have hamem := List.mem_filter.mp
      (show a ∈ st.keys.filter
          (fun j => decide (j.id = key_id ∧ j.user_id = user_id ∧ j.revoked_at = none)) by
        rw [hfil]; exact List.mem_singleton_self a)
    have haq : a.id = key_id ∧ a.user_id = user_id ∧ a.revoked_at = none := by
      have h2 := hamem.2
      simp only [decide_eq_true_eq] at h2
      exact h2
    have hkeys2 : st'.keys = st.keys.map (fun j => if j.id = a.id then k' else j) := by
      rw [hst']
    apply revoke_of_no_candidate
    refine List.filter_eq_nil_iff.mpr (fun x hx hq => ?_)
    rw [hkeys2] at hx
    simp only [List.mem_map] at hx
    obtain ⟨j, hj, hxj⟩ := hx
    simp only [decide_eq_true_eq] at hq
    by_cases hjid : j.id = a.id
    · rw [if_pos hjid] at hxj
      rw [← hxj, hk'] at hq
      simp at hq
    · rw [if_neg hjid] at hxj
      rw [← hxj] at hq
      exact hjid (by rw [hq.1, haq.1])

/-- C5 witness: on the one-credential store, revoking id 0 for its owner
does not report not-found, and after a successful revocation a second
revocation reports not-found leaving the store unchanged. -/
theorem revoke_not_found_iff_witness :
    (revoke_api_key demoStore 0 7 5 = .ok (none, demoStore) ↔
      ¬ ∃ k ∈ demoStore.keys, k.id = 0 ∧ k.user_id = 7 ∧
        k.status = KeyStatus.active) ∧
    (∀ k' st', revoke_api_key demoStore 0 7 5 = .ok (some k', st') →
      ∀ now2, revoke_api_key st' 0 7 now2 = .ok (none, st')) :=
  revoke_not_found_iff demoStore 0 7 5 (by decide)

/-- C6: issuance returns the raw secret itself to the caller, and no string
field of the stored row equals the raw secret: the row holds only the
SHA-256 hex fingerprint (64 characters) and the eight-character slice,
both of different length than the 43-character raw key, plus the caller's
label. (The remaining columns are ids, status and timestamps, which are
not strings.) -/
theorem raw_secret_not_persisted (st : Store) (user_id : Nat) (name raw : String) (now : Nat)
    (hlen : raw.length = 43) (hname : name ≠ raw) :
    (create_api_key st user_id name raw now).2.1 = raw ∧
    (create_api_key st user_id name raw now).1.key_hash = get_api_key_hash raw ∧
     APIKey.key_prefix (create_api_key st user_id name raw now).1 = pySlice8 raw ∧
     APIKey.key_prefix (create_api_key st user_id name raw now).1 ≠ raw ∧
    (create_api_key st user_id name raw now).1.key_hash ≠ raw ∧
    (create_api_key st user_id name raw now).1.name ≠ raw := by
  refine ⟨rfl, rfl, rfl, ?_, ?_, hname⟩
  · intro hcontra
    have hpfx : APIKey.key_prefix (create_api_key st user_id name raw now).1 =
        pySlice8 raw := rfl
    rw [hpfx] at hcontra
    have h1 := pySlice8_length raw
    rw [hcontra, hlen] at h1
    omega
  · intro hcontra
    have hh : (create_api_key st user_id name raw now).1.key_hash =
        get_api_key_hash raw := rfl
    rw [hh] at hcontra
    have h1 := get_api_key_hash_length raw
    rw [hcontra, hlen] at h1
    omega

/-- C6 witness: a concrete 43-character key and the label "ci-bot". -/
theorem raw_secret_not_persisted_witness :
    (create_api_key emptyStore 9 "ci-bot" rawX 3).2.1 = rawX ∧
    (create_api_key emptyStore 9 "ci-bot" rawX 3).1.key_hash = get_api_key_hash rawX ∧
     APIKey.key_prefix (create_api_key emptyStore 9 "ci-bot" rawX 3).1 = pySlice8 rawX ∧
     APIKey.key_prefix (create_api_key emptyStore 9 "ci-bot" rawX 3).1 ≠ rawX ∧
    (create_api_key emptyStore 9 "ci-bot" rawX 3).1.key_hash ≠ rawX ∧
    (create_api_key emptyStore 9 "ci-bot" rawX 3).1.name ≠ rawX :=
  raw_secret_not_persisted emptyStore 9 "ci-bot" rawX 3 (by decide) (by decide)

/-- A raw key issued at instant 1, before `rawNew`'s credential. -/
def rawOld : String := "OldKey11AAAAAAAAAAAAAAAAAAAAAAAAAAAAAAAAAAA"

/-- A raw key issued at instant 2, after `rawOld`'s credential. -/
def rawNew : String := "NewKey22AAAAAAAAAAAAAAAAAAAAAAAAAAAAAAAAAAA"

/-- User 7 with two live credentials created at instants 1 and then 2. -/
def twoKeyStore : Store :=
  (create_api_key (create_api_key emptyStore 7 "old" rawOld 1).2.2 7 "new" rawNew 2).2.2

/-- C7 counterexample: the listing query has no ORDER BY, so the two
credentials of user 7 come back in the store's insertion order — creation
instants [1, 2], oldest first — not most-recent-first as claimed. -/
theorem list_keys_not_recent_first :
    ((get_user_api_keys twoKeyStore 7).1.map APIKey.created_at = [1, 2]) ∧
    ¬ ((get_user_api_keys twoKeyStore 7).1.map APIKey.created_at).Sorted
        (fun a b => b ≤ a) := by
  constructor
  · rfl
  · intro hsorted
    have h1 : ((get_user_api_keys twoKeyStore 7).1.map APIKey.created_at) =
        [1, 2] := rfl
    rw [h1] at hsorted
    have h2 := List.pairwise_cons.mp hsorted
    have h3 := h2.1 2 (List.mem_singleton_self 2)
    omega

/-- C7 amended: listing returns exactly the owner's credentials whose
revocation stamp is unset, preserving the store's insertion order (creation
order, oldest first — the code applies no ordering of its own), and
mutates nothing. -/
theorem list_keys_filter_order (st : Store) (user_id : Nat) :
    (get_user_api_keys st user_id).2 = st ∧
    (get_user_api_keys st user_id).1.Sublist st.keys ∧
    ∀ k, k ∈ (get_user_api_keys st user_id).1 ↔
      (k ∈ st.keys ∧ k.user_id = user_id ∧ k.revoked_at = none) := by
  refine ⟨rfl, List.filter_sublist st.keys, fun k => ?_⟩
  simp [get_user_api_keys, List.mem_filter]

/-- C7 amended witness: the two-credential store listed for user 7. -/
theorem list_keys_filter_order_witness :
    (get_user_api_keys twoKeyStore 7).2 = twoKeyStore ∧
    (get_user_api_keys twoKeyStore 7).1.Sublist twoKeyStore.keys ∧
    ∀ k, k ∈ (get_user_api_keys twoKeyStore 7).1 ↔
      (k ∈ twoKeyStore.keys ∧ k.user_id = 7 ∧ k.revoked_at = none) :=
  list_keys_filter_order twoKeyStore 7

/-- C8: issuance through the route fails with the pydantic validation error
exactly when the label is empty or longer than 100 characters; otherwise it
succeeds, stores the label, returns the raw key, and the created credential
is active and persisted. -/
theorem issue_validation_iff (st : Store) (user_id : Nat) (name raw : String) (now : Nat) :
    ((∃ e, create_api_key_endpoint st user_id name raw now = .error e) ↔
      (name.length = 0 ∨ 100 < name.length)) ∧
    ∀ db_key raw2 st₂,
      create_api_key_endpoint st user_id name raw now = .ok (db_key, raw2, st₂) →
      (db_key.status = KeyStatus.active ∧ db_key.name = name ∧
        db_key ∈ st₂.keys ∧ raw2 = raw) := by
  by_cases h : name.length < 1 ∨ name.length > 100
  · constructor
    · simp only [create_api_key_endpoint, if_pos h]
      constructor
      · intro _
        omega
      · intro _
        exact ⟨ValidationErr.invalidName, by trivial⟩
    · intro db raw2 st₂ hok
      simp only [create_api_key_endpoint, if_pos h] at hok
      cases hok
  · constructor
    · simp only [create_api_key_endpoint, if_neg h]
      constructor
      · rintro ⟨e, he⟩
        cases he
      · intro hlen
        exfalso
        omega
    · intro db raw2 st₂ hok
      simp only [create_api_key_endpoint, if_neg h] at hok
      injection hok with h3
      refine ⟨?_, ?_, ?_, ?_⟩
      · rw [show db = (db, raw2, st₂).1 from rfl, ← h3]
        rfl
      · rw [show db = (db, raw2, st₂).1 from rfl, ← h3]
        rfl
      · rw [show db = (db, raw2, st₂).1 from rfl,
          show st₂ = (db, raw2, st₂).2.2 from rfl, ← h3]
        have hkeys : (create_api_key st user_id name raw now).2.2.keys =
            st.keys ++ [(create_api_key st user_id name raw now).1] := rfl
        rw [hkeys]
        exact List.mem_append_right _ (List.mem_singleton_self _)
      · rw [show raw2 = (db, raw2, st₂).2.1 from rfl, ← h3]
        rfl

/-- C8 witness: the 6-character label "ci-bot" passes validation and yields
an active credential. -/
theorem issue_validation_iff_witness :
    ((∃ e, create_api_key_endpoint emptyStore 42 "ci-bot" rawX 1 = .error e) ↔
      (("ci-bot" : String).length = 0 ∨ 100 < ("ci-bot" : String).length)) ∧
    ∀ db_key raw2 st₂,
      create_api_key_endpoint emptyStore 42 "ci-bot" rawX 1 = .ok (db_key, raw2, st₂) →
      (db_key.status = KeyStatus.active ∧ db_key.name = "ci-bot" ∧
        db_key ∈ st₂.keys ∧ raw2 = rawX) :=
  issue_validation_iff emptyStore 42 "ci-bot" rawX 1

theorem strCmpSteps_eq (as bs : List Char) (hlen : as.length = bs.length) :
    strCmpSteps as bs = min (leadingMatch as bs + 1) as.length := by
  induction as generalizing bs with
  | nil =>
    cases bs with
    | nil => simp [strCmpSteps, leadingMatch]
    | cons b bs2 => simp at hlen
  | cons a as2 ih =>
    cases bs with
    | nil => simp at hlen
    | cons b bs2 =>
      have hlen2 : as2.length = bs2.length := by simpa using hlen
      by_cases hab : a = b
      · have hih := ih bs2 hlen2
        simp only [strCmpSteps, leadingMatch, if_pos hab, List.length_cons]
        omega
      · simp only [strCmpSteps, leadingMatch, if_neg hab, List.length_cons]
        omega

/-- A digest of the demo key with its last character replaced: 63 leading
characters match. -/
def storedNearMiss : String := ⟨(get_api_key_hash rawX).data.take 63 ++ ['~']⟩

/-- A stored value matching the digest in no leading character. -/
def storedFarMiss : String := ⟨List.replicate 64 '~'⟩

/-- C9 counterexample: two equal-length wrong fingerprints are both
rejected, yet under the byte-by-byte short-circuit cost model of CPython's
`==` the comparison spends 64 steps on the near miss (63 leading matches)
and 1 step on the far miss (0 leading matches): the running time of the
comparison depends on how many leading characters match. -/
theorem fingerprint_compare_not_constant_time :
    verify_api_key rawX storedNearMiss = false ∧
    verify_api_key rawX storedFarMiss = false ∧
    storedNearMiss.length = storedFarMiss.length ∧
    verify_api_key_cost rawX storedNearMiss = 64 ∧
    verify_api_key_cost rawX storedFarMiss = 1 :=
  ⟨rfl, rfl, rfl, rfl, rfl⟩

/-- C9 amended: the fingerprint comparison is ordinary short-circuit string
equality — correct (true exactly on digest equality) but not constant-time:
for an equal-length stored value its step count is one more than the number
of leading matching characters, capped at the digest length. -/
theorem fingerprint_compare_cost (api_key stored_hash : String)
    (hlen : (get_api_key_hash api_key).length = stored_hash.length) :
    verify_api_key_cost api_key stored_hash =
      min (leadingMatch (get_api_key_hash api_key).data stored_hash.data + 1)
        (get_api_key_hash api_key).length ∧
    (verify_api_key api_key stored_hash = true ↔
      get_api_key_hash api_key = stored_hash) := by
  constructor
  · rw [verify_api_key_cost, pyStrEqCost, if_pos hlen]
    exact strCmpSteps_eq _ _ hlen
  · rw [verify_api_key]
    exact beq_iff_eq

/-- C9 amended witness: the cost characterization at the "abc" test vector. -/
theorem fingerprint_compare_cost_witness :
    (verify_api_key_cost "abc"
        "ba7816bf8f01cfea414140de5dae2223b00361a396177a9cb410ff61f20015ad" =
      min (leadingMatch (get_api_key_hash "abc").data
          ("ba7816bf8f01cfea414140de5dae2223b00361a396177a9cb410ff61f20015ad" : String).data + 1)
        (get_api_key_hash "abc").length) ∧
    (verify_api_key "abc"
        "ba7816bf8f01cfea414140de5dae2223b00361a396177a9cb410ff61f20015ad" = true ↔
      get_api_key_hash "abc" =
        "ba7816bf8f01cfea414140de5dae2223b00361a396177a9cb410ff61f20015ad") :=
  fingerprint_compare_cost "abc"
    "ba7816bf8f01cfea414140de5dae2223b00361a396177a9cb410ff61f20015ad" (by rfl)

/-- C4: for a credential that exists and belongs to the caller, the usage
statistics are exactly: total = number of the key's usage rows; successful =
rows with status < 400; failed = total − successful; average latency = the
arithmetic mean of the rows' response times and exactly 0 on an empty ledger
(no division error); a histogram mapping each endpoint to its positive row
count, with the bucket counts summing to the total; and a recent feed of at
most 10 entries ordered by creation instant descending, each carrying an
original row's fields. -/
theorem usage_stats_correct (st : Store) (key_id user_id : Nat)
    (hnodup : (st.keys.map APIKey.id).Nodup)
    (hmem : ∃ k ∈ st.keys, k.id = key_id ∧ k.user_id = user_id) :
    ∃ S, get_key_usage_stats st key_id user_id = .ok (some S) ∧
      S.total_requests = (keyUsageLogs st key_id).length ∧
      S.successful_requests =
        (keyUsageLogs st key_id).countP (fun u => decide (u.status_code < 400)) ∧
      S.failed_requests = S.total_requests - S.successful_requests ∧
      (keyUsageLogs st key_id = [] → S.average_response_time = 0) ∧
      (keyUsageLogs st key_id ≠ [] →
        S.average_response_time =
          ((keyUsageLogs st key_id).map APIKeyUsage.response_time).sum /
            ((keyUsageLogs st key_id).length : ℚ)) ∧
      (∀ e n, dictGet S.usage_by_endpoint e = some n ↔
        (countEndpoint e (keyUsageLogs st key_id) = n ∧ 0 < n)) ∧
      dictValsSum S.usage_by_endpoint = S.total_requests ∧
      S.recent_usage.length ≤ 10 ∧
      S.recent_usage.Pairwise (fun a b => b.created_at ≤ a.created_at) ∧
      (∀ en ∈ S.recent_usage, ∃ u ∈ keyUsageLogs st key_id, en = toUsageEntry u) := by
  obtain ⟨k, hk, hid, huid⟩ := hmem
  have hfil : st.keys.filter
      (fun j => decide (j.id = key_id ∧ j.user_id = user_id)) = [k] :=
    filter_eq_singleton_of_nodup_ids st.keys _ hnodup k hk (by simp [hid, huid])
      (fun j hj => by
        simp only [decide_eq_true_eq] at hj
        rw [hj.1, hid])
  simp only [get_key_usage_stats]
  rw [hfil]
  simp only [scalarOneOrNone]
  by_cases hempty : keyUsageLogs st key_id = []
  · rw [if_pos (show (keyUsageLogs st key_id).isEmpty = true by rw [hempty]; rfl)]
    refine ⟨_, rfl, ?_, ?_, rfl, fun _ => rfl, fun hne => absurd hempty hne,
      ?_, rfl, ?_, ?_, ?_⟩
    · rw [hempty]
      rfl
    · rw [hempty]
      rfl
    · intro e n
      rw [hempty]
      simp only [dictGet, countEndpoint, List.countP_nil]
      constructor
      · intro hx
        cases hx
      · intro hx
        omega
    · simp
    · simp
    · simp
  · rw [if_neg (show ¬ ((keyUsageLogs st key_id).isEmpty = true) from fun hc =>
      hempty (List.isEmpty_iff.mp hc))]
    refine ⟨_, rfl, rfl, rfl, rfl, fun hc => absurd hc hempty, fun _ => rfl,
      fun e n => dictGet_endpointCounts (keyUsageLogs st key_id) e n,
      dictValsSum_endpointCounts (keyUsageLogs st key_id), ?_, ?_, ?_⟩
    · rw [List.length_map]
      exact List.length_take_le 10 _
    · refine List.pairwise_map.mpr ?_
      exact List.Pairwise.sublist (List.take_sublist 10 _)
        (sortedByCreatedDesc_pairwise (keyUsageLogs st key_id))
    · intro en hen
      obtain ⟨u, hu, hue⟩ := List.mem_map.mp hen
      refine ⟨u, ?_, hue.symm⟩
      exact (mem_sortedByCreatedDesc (keyUsageLogs st key_id) u).mp
        ((List.take_sublist 10 _).subset hu)

/-- Ledger with statuses [200, 404, 500] for the demo credential. -/
def demoUsageStore : Store :=
  log_api_key_usage
    (log_api_key_usage
      (log_api_key_usage demoStore 0 "/summarize" "POST" 200 ((21 : ℚ)/50) "10.0.0.1"
        (some "curl/8.0") 3)
      0 "/summarize" "POST" 404 ((1 : ℚ)/2) "10.0.0.1" none 4)
    0 "/para" "POST" 500 ((1 : ℚ)/4) "10.0.0.1" none 5

/-- C4 witness: statistics of the demo credential over its three-row ledger. -/
theorem usage_stats_correct_witness :
    ∃ S, get_key_usage_stats demoUsageStore 0 7 = .ok (some S) ∧
      S.total_requests = (keyUsageLogs demoUsageStore 0).length ∧
      S.successful_requests =
        (keyUsageLogs demoUsageStore 0).countP (fun u => decide (u.status_code < 400)) ∧
      S.failed_requests = S.total_requests - S.successful_requests ∧
      (keyUsageLogs demoUsageStore 0 = [] → S.average_response_time = 0) ∧
      (keyUsageLogs demoUsageStore 0 ≠ [] →
        S.average_response_time =
          ((keyUsageLogs demoUsageStore 0).map APIKeyUsage.response_time).sum /
            ((keyUsageLogs demoUsageStore 0).length : ℚ)) ∧
      (∀ e n, dictGet S.usage_by_endpoint e = some n ↔
        (countEndpoint e (keyUsageLogs demoUsageStore 0) = n ∧ 0 < n)) ∧
      dictValsSum S.usage_by_endpoint = S.total_requests ∧
      S.recent_usage.length ≤ 10 ∧
      S.recent_usage.Pairwise (fun a b => b.created_at ≤ a.created_at) ∧
      (∀ en ∈ S.recent_usage, ∃ u ∈ keyUsageLogs demoUsageStore 0, en = toUsageEntry u) :=
  usage_stats_correct demoUsageStore 0 7 (by decide) (by decide)

section InvariantPreservation

/-- Inversion: a revocation that found nothing leaves the store untouched. -/
theorem revoke_ok_none_inv (st : Store) (key_id user_id now : Nat) (st' : Store)
    (h : revoke_api_key st key_id user_id now = .ok (none, st')) : st' = st := by
  simp only [revoke_api_key] at h
  cases hfil : st.keys.filter
      (fun j => decide (j.id = key_id ∧ j.user_id = user_id ∧ j.revoked_at = none)) with
  | nil =>
    rw [hfil] at h
    simp only [scalarOneOrNone, Except.ok.injEq, Prod.mk.injEq] at h
    exact h.2.symm
  | cons a t =>
    cases t with
    | nil =>
      rw [hfil] at h
      simp [scalarOneOrNone] at h
    | cons b t2 =>
      rw [hfil] at h
      simp [scalarOneOrNone] at h

/-- Inversion: a failed verification leaves the store untouched. -/
theorem verify_ok_none_inv (st : Store) (api_key : String) (now : Nat) (st' : Store)
    (h : verify_and_update_key st api_key now = .ok (none, st')) : st' = st := by
  simp only [verify_and_update_key] at h
  cases hfil : st.keys.filter
      (fun j => decide ( APIKey.key_prefix j = pySlice8 api_key ∧
        j.status = KeyStatus.active)) with
  | nil =>
    rw [hfil] at h
    simp only [scalarOneOrNone, Except.ok.injEq, Prod.mk.injEq] at h
    exact h.2.symm
  | cons a t =>
    cases t with
    | nil =>
      rw [hfil] at h
      simp only [scalarOneOrNone] at h
      cases hv : verify_api_key api_key a.key_hash with
      | false =>
        rw [hv] at h
        simp only [Bool.false_eq_true, if_false, Except.ok.injEq, Prod.mk.injEq] at h
        exact h.2.symm
      | true =>
        rw [hv] at h
        simp at h
    | cons b t2 =>
      rw [hfil] at h
      simp [scalarOneOrNone] at h

/-- The empty store satisfies the lifecycle invariant. -/
theorem storeInv_empty : storeInv emptyStore := by
  intro k hk
  cases hk

/-- Issuance preserves the lifecycle invariant: the new row is active with
no revocation stamp. -/
theorem storeInv_create (st : Store) (user_id : Nat) (name raw : String) (now : Nat)
    (h : storeInv st) : storeInv (create_api_key st user_id name raw now).2.2 := by
  intro k hk
  have hkeys : (create_api_key st user_id name raw now).2.2.keys =
      st.keys ++ [(create_api_key st user_id name raw now).1] := rfl
  rw [hkeys] at hk
  rcases List.mem_append.mp hk with h1 | h1
  · exact h k h1
  · have hk2 : k = (create_api_key st user_id name raw now).1 := List.mem_singleton.mp h1
    rw [hk2]
    exact ⟨fun _ => rfl, fun _ => rfl⟩

/-- Revocation preserves the lifecycle invariant: the revoked row leaves
active and gains a stamp, all other rows are untouched. -/
theorem storeInv_revoke (st : Store) (key_id user_id now : Nat) (o : Option APIKey)
    (st' : Store) (h : storeInv st)
    (hres : revoke_api_key st key_id user_id now = .ok (o, st')) : storeInv st' := by
  cases o with
  | none =>
    rw [revoke_ok_none_inv st key_id user_id now st' hres]
    exact h
  | some k' =>
    obtain ⟨a, hfil, hk', hst'⟩ := revoke_ok_some_inv st key_id user_id now k' st' hres
    intro k hk
    have hkeys : st'.keys = st.keys.map (fun j => if j.id = a.id then k' else j) := by
      rw [hst']
    rw [hkeys] at hk
    obtain ⟨j, hj, hjk⟩ := List.mem_map.mp hk
    by_cases hjid : j.id = a.id
    · rw [if_pos hjid] at hjk
      rw [← hjk, hk']
      constructor
      · intro hc
        cases hc
      · intro hc
        cases hc
    · rw [if_neg hjid] at hjk
      rw [← hjk]
      exact h j hj

/-- Verification preserves the lifecycle invariant: only `last_used_at`
changes on the touched row. -/
theorem storeInv_verify (st : Store) (api_key : String) (now : Nat) (o : Option APIKey)
    (st' : Store) (h : storeInv st)
    (hres : verify_and_update_key st api_key now = .ok (o, st')) : storeInv st' := by
  cases o with
  | none =>
    rw [verify_ok_none_inv st api_key now st' hres]
    exact h
  | some k' =>
    obtain ⟨a, hfil, hv, hk', hst'⟩ := verify_ok_some_inv st api_key now k' st' hres
    have hamem : a ∈ st.keys := by
      have hmem : a ∈ st.keys.filter
          (fun j => decide ( APIKey.key_prefix j = pySlice8 api_key ∧
            j.status = KeyStatus.active)) := by
        rw [hfil]
        exact List.mem_singleton_self a
      exact List.mem_of_mem_filter hmem
    intro k hk
    have hkeys : st'.keys = st.keys.map (fun j => if j.id = a.id then k' else j) := by
      rw [hst']
    rw [hkeys] at hk
    obtain ⟨j, hj, hjk⟩ := List.mem_map.mp hk
    by_cases hjid : j.id = a.id
    · rw [if_pos hjid] at hjk
      rw [← hjk, hk']
      exact h a hamem
    · rw [if_neg hjid] at hjk
      rw [← hjk]
      exact h j hj

/-- The usage ledger append does not touch the credential table. -/
theorem storeInv_log (st : Store) (api_key_id : Nat) (endpoint method : String)
    (status_code : Nat) (response_time : ℚ) (ip_address : String)
    (user_agent : Option String) (now : Nat) (h : storeInv st) :
    storeInv (log_api_key_usage st api_key_id endpoint method status_code response_time
      ip_address user_agent now) := by
  intro k hk
  exact h k hk

end InvariantPreservation

end AiToolNest
